import Mathlib

/-!
Verification of the bitstream front-end of the `opus` crate: the
table-of-contents (TOC) byte parser, the packet framer, the range decoder
and the range encoder.  Rust `u8`/`u16`/`u32`/`usize` values are embedded
as `Nat` with explicit wrap-around (`% 2^32`) at the points where the
source could exceed the register width; byte slices are embedded as
`List Nat` whose entries are below 256; fallible paths return `Except`
or an explicit result type with a `crash` outcome that models a Rust
panic (out-of-bounds index, arithmetic underflow, non-termination).
-/

namespace Opus

/-- Error type of the crate (`lib.rs`). -/
inductive Error where
  | Encode
  | Decode
  | InvalidPacketSize
  | InvalidFramesPerPacket
  | InvalidFrameCount
  | InvalidOpusPadding
  | InvalidCodecConfig
deriving DecidableEq, Repr

/-- `FramesPerPacket` from `lib.rs`. -/
inductive FramesPerPacket where
  | One
  | TwoEquallyCompressed
  | TwoDifferentlyCompressed
  | Arbitrary
deriving DecidableEq, Repr

/-- `Channels` from `lib.rs`. -/
inductive Channels where
  | Mono
  | Stereo
deriving DecidableEq, Repr

/-- `CodecMode` from `lib.rs`. -/
inductive CodecMode where
  | SILKOnly
  | Hybrid
  | CELTOnly
deriving DecidableEq, Repr

/-- `Bandwidth` from `lib.rs`. -/
inductive Bandwidth where
  | Narrow
  | Medium
  | Wide
  | SuperWide
  | Full
deriving DecidableEq, Repr

/-- `FrameSizeMs` from `lib.rs`. -/
inductive FrameSizeMs where
  | TwoPointFive
  | Five
  | Ten
  | Twenty
  | Forty
  | Sixty
deriving DecidableEq, Repr

/-- `CodecConfig` from `lib.rs`. -/
structure CodecConfig where
  mode : CodecMode
  bandwidth : Bandwidth
  frame_size : FrameSizeMs
deriving DecidableEq, Repr

/-- `TableOfContentsHeader` from `lib.rs`. -/
structure TableOfContentsHeader where
  codec_config : CodecConfig
  channels : Channels
  frames_per_packet : FramesPerPacket
deriving DecidableEq, Repr

/-- `impl TryFrom<u8> for FramesPerPacket` (`decoder.rs`): match on the low
two bits, with the structurally unreachable defensive arm. -/
def framesPerPacketTryFrom (byte : Nat) : Except Error FramesPerPacket :=
  match byte &&& 0b00000011 with
  | 0 => .ok .One
  | 1 => .ok .TwoEquallyCompressed
  | 2 => .ok .TwoDifferentlyCompressed
  | 3 => .ok .Arbitrary
  | _ => .error .InvalidFramesPerPacket

/-- `impl TryFrom<u8> for CodecConfig` (`decoder.rs`): the fixed 32-entry
table on the top five bits of the byte. -/
def codecConfigTryFrom (byte : Nat) : Except Error CodecConfig :=
  match (byte &&& 0b11111000) >>> 3 with
  | 0 => .ok ⟨.SILKOnly, .Narrow, .Ten⟩
  | 1 => .ok ⟨.SILKOnly, .Narrow, .Twenty⟩
  | 2 => .ok ⟨.SILKOnly, .Narrow, .Forty⟩
  | 3 => .ok ⟨.SILKOnly, .Narrow, .Sixty⟩
  | 4 => .ok ⟨.SILKOnly, .Medium, .Ten⟩
  | 5 => .ok ⟨.SILKOnly, .Medium, .Twenty⟩
  | 6 => .ok ⟨.SILKOnly, .Medium, .Forty⟩
  | 7 => .ok ⟨.SILKOnly, .Medium, .Sixty⟩
  | 8 => .ok ⟨.SILKOnly, .Wide, .Ten⟩
  | 9 => .ok ⟨.SILKOnly, .Wide, .Twenty⟩
  | 10 => .ok ⟨.SILKOnly, .Wide, .Forty⟩
  | 11 => .ok ⟨.SILKOnly, .Wide, .Sixty⟩
  | 12 => .ok ⟨.Hybrid, .SuperWide, .Ten⟩
  | 13 => .ok ⟨.Hybrid, .SuperWide, .Twenty⟩
  | 14 => .ok ⟨.Hybrid, .Full, .Ten⟩
  | 15 => .ok ⟨.Hybrid, .Full, .Twenty⟩
  | 16 => .ok ⟨.CELTOnly, .Narrow, .TwoPointFive⟩
  | 17 => .ok ⟨.CELTOnly, .Narrow, .Five⟩
  | 18 => .ok ⟨.CELTOnly, .Narrow, .Ten⟩
  | 19 => .ok ⟨.CELTOnly, .Narrow, .Twenty⟩
  | 20 => .ok ⟨.CELTOnly, .Wide, .TwoPointFive⟩
  | 21 => .ok ⟨.CELTOnly, .Wide, .Five⟩
  | 22 => .ok ⟨.CELTOnly, .Wide, .Ten⟩
  | 23 => .ok ⟨.CELTOnly, .Wide, .Twenty⟩
  | 24 => .ok ⟨.CELTOnly, .SuperWide, .TwoPointFive⟩
  | 25 => .ok ⟨.CELTOnly, .SuperWide, .Five⟩
  | 26 => .ok ⟨.CELTOnly, .SuperWide, .Ten⟩
  | 27 => .ok ⟨.CELTOnly, .SuperWide, .Twenty⟩
  | 28 => .ok ⟨.CELTOnly, .Full, .TwoPointFive⟩
  | 29 => .ok ⟨.CELTOnly, .Full, .Five⟩
  | 30 => .ok ⟨.CELTOnly, .Full, .Ten⟩
  | 31 => .ok ⟨.CELTOnly, .Full, .Twenty⟩
  | _ => .error .InvalidCodecConfig

/-- `impl TryFrom<u8> for TableOfContentsHeader` (`decoder.rs`). -/
def tocTryFrom (byte : Nat) : Except Error TableOfContentsHeader :=
  match codecConfigTryFrom byte with
  | .error e => .error e
  | .ok codec_config =>
    match framesPerPacketTryFrom byte with
    | .error e => .error e
    | .ok frames_per_packet =>
      let channels := if (byte >>> 2) &&& 0b1 == 0b1 then Channels.Stereo else Channels.Mono
      .ok ⟨codec_config, channels, frames_per_packet⟩

/-- Re-derivation map used to state the TOC round-trip property: the unique
config index each parsed `CodecConfig` came from (64 on triples outside the
table image). -/
def configIndex (c : CodecConfig) : Nat :=
  match c.mode, c.bandwidth, c.frame_size with
  | .SILKOnly, .Narrow, .Ten => 0
  | .SILKOnly, .Narrow, .Twenty => 1
  | .SILKOnly, .Narrow, .Forty => 2
  | .SILKOnly, .Narrow, .Sixty => 3
  | .SILKOnly, .Medium, .Ten => 4
  | .SILKOnly, .Medium, .Twenty => 5
  | .SILKOnly, .Medium, .Forty => 6
  | .SILKOnly, .Medium, .Sixty => 7
  | .SILKOnly, .Wide, .Ten => 8
  | .SILKOnly, .Wide, .Twenty => 9
  | .SILKOnly, .Wide, .Forty => 10
  | .SILKOnly, .Wide, .Sixty => 11
  | .Hybrid, .SuperWide, .Ten => 12
  | .Hybrid, .SuperWide, .Twenty => 13
  | .Hybrid, .Full, .Ten => 14
  | .Hybrid, .Full, .Twenty => 15
  | .CELTOnly, .Narrow, .TwoPointFive => 16
  | .CELTOnly, .Narrow, .Five => 17
  | .CELTOnly, .Narrow, .Ten => 18
  | .CELTOnly, .Narrow, .Twenty => 19
  | .CELTOnly, .Wide, .TwoPointFive => 20
  | .CELTOnly, .Wide, .Five => 21
  | .CELTOnly, .Wide, .Ten => 22
  | .CELTOnly, .Wide, .Twenty => 23
  | .CELTOnly, .SuperWide, .TwoPointFive => 24
  | .CELTOnly, .SuperWide, .Five => 25
  | .CELTOnly, .SuperWide, .Ten => 26
  | .CELTOnly, .SuperWide, .Twenty => 27
  | .CELTOnly, .Full, .TwoPointFive => 28
  | .CELTOnly, .Full, .Five => 29
  | .CELTOnly, .Full, .Ten => 30
  | .CELTOnly, .Full, .Twenty => 31
  | _, _, _ => 64

/-- Re-derivation map for the two framing bits. -/
def framingIndex : FramesPerPacket → Nat
  | .One => 0
  | .TwoEquallyCompressed => 1
  | .TwoDifferentlyCompressed => 2
  | .Arbitrary => 3

/-- Re-derivation map for the channel bit. -/
def channelBit : Channels → Nat
  | .Mono => 0
  | .Stereo => 1

/-- TOC round-trip check for one byte: parsing succeeds and the three
re-derived fields reproduce the corresponding bits of the byte. -/
def checkTOC (b : Nat) : Bool :=
  match tocTryFrom b with
  | .ok h =>
      configIndex h.codec_config == b >>> 3
        && framingIndex h.frames_per_packet == b &&& 0b11
        && channelBit h.channels == (b >>> 2) &&& 0b1
  | .error _ => false

/-- `MAX_FRAME_COUNT_PER_PACKET` from `decoder.rs`. -/
def MAX_FRAME_COUNT_PER_PACKET : Nat := 48

/-- Result of a framing computation: success, a returned `Error`, or a Rust
panic (`crash`): out-of-bounds slice index or arithmetic underflow. -/
inductive PRes (α : Type) where
  | ok (a : α)
  | err (e : Error)
  | crash
deriving DecidableEq, Repr

/-- `parse_size` from `decoder.rs`.  The outer `Option` layer models the
unchecked `data[0]` read: `none` is the panic on an empty slice.  The inner
`Option` is the Rust return value: byte 0 is invalid, 1 to 251 is a one-byte
size, 252 to 255 needs a second byte `b1` giving `b1 * 4 + b0`. -/
def parse_size (data : List Nat) : Option (Option (Nat × Nat)) :=
  match data with
  | [] => none
  | 0 :: _ => some none
  | b :: rest =>
    if b ≤ 251 then some (some (b, 1))
    else
      match rest with
      | b1 :: _ => some (some (b1 * 4 + b, 2))
      | [] => some none

/-- The padding-length loop of the `Arbitrary` arm of `FrameIterator::new`
(`decoder.rs`): a byte of 255 adds 254 to the accumulator and continues, a
byte of at most 254 adds its value and stops; an exhausted buffer is
`InvalidOpusPadding`. -/
def paddingLoop (acc : Nat) : List Nat → Except Error (Nat × List Nat)
  | [] => .error .InvalidOpusPadding
  | b :: rest =>
    if b ≤ 254 then .ok (acc + b, rest) else paddingLoop (acc + 254) rest

/-- The variable-bit-rate size loop of `FrameIterator::new` (`decoder.rs`):
`k` iterations of `sizes.iter_mut().take(num_frames - 1)` (the source clamps
`k` to the array length via `take`), each parsing one size prefix, checking
it against the remaining length, and consuming the prefix bytes.  Returns
the parsed sizes in order together with the remaining buffer. -/
def vbrLoop : Nat → List Nat → PRes (List Nat × List Nat)
  | 0, packet => .ok ([], packet)
  | k + 1, packet =>
    match parse_size packet with
    | none => .crash
    | some none => .err .InvalidPacketSize
    | some (some (frame_size, num_bytes)) =>
      if frame_size > packet.length then .err .InvalidPacketSize
      else
        match vbrLoop k (packet.drop num_bytes) with
        | .ok (sizes, rest) => .ok (frame_size :: sizes, rest)
        | .err e => .err e
        | .crash => .crash

/-- The state built by `FrameIterator::new` (`decoder.rs`); the borrowed
`toc` reference is omitted because no later computation reads it. -/
structure FrameIteratorS where
  count : Nat
  sizes : List Nat
  packet : List Nat
  constant_bit_rate : Bool
deriving DecidableEq, Repr

/-- Bounds-checked write `sizes[i] = v` into the fixed 48-entry array;
`none` is the Rust index-out-of-bounds panic. -/
def set_size (sizes : List Nat) (i v : Nat) : Option (List Nat) :=
  if i < sizes.length then some (sizes.set i v) else none

/-- The `sizes` array at its initial value `[0; MAX_FRAME_COUNT_PER_PACKET]`. -/
def zeroSizes : List Nat := List.replicate MAX_FRAME_COUNT_PER_PACKET 0

/-- The common tail of `FrameIterator::new`: `sizes[count - 1] = last_frame_size`
followed by construction of the iterator state. -/
def finishFramer (count : Nat) (sizes packet : List Nat) (last_frame_size : Nat)
    (constant_bit_rate : Bool) : PRes FrameIteratorS :=
  match set_size sizes (count - 1) last_frame_size with
  | some sizes => .ok ⟨count, sizes, packet, constant_bit_rate⟩
  | none => .crash

/-- The part of the `Arbitrary` arm of `FrameIterator::new` after the control
byte and padding handling: the variable-bit-rate loop, or the constant-bit-rate
divisibility check and fill.  The constant-bit-rate arm slices
`sizes[0..(num_frames - 1)]`, which panics when `num_frames - 1` exceeds the
array length. -/
def arbitraryTail (num_frames : Nat) (variable_bit_rate : Bool) (packet : List Nat) :
    PRes FrameIteratorS :=
  if variable_bit_rate then
    match vbrLoop (min (num_frames - 1) MAX_FRAME_COUNT_PER_PACKET) packet with
    | .ok (parsed, rest) =>
        finishFramer num_frames
          (parsed ++ List.replicate (MAX_FRAME_COUNT_PER_PACKET - parsed.length) 0)
          rest rest.length false
    | .err e => .err e
    | .crash => .crash
  else
    if packet.length % num_frames ≠ 0 then .err .InvalidPacketSize
    else
      let frame_size := packet.length / num_frames
      if num_frames - 1 ≤ MAX_FRAME_COUNT_PER_PACKET then
        finishFramer num_frames
          (List.replicate (num_frames - 1) frame_size
            ++ List.replicate (MAX_FRAME_COUNT_PER_PACKET - (num_frames - 1)) 0)
          packet frame_size true
      else .crash

/-- `FrameIterator::new` from `decoder.rs`. -/
def framerNew (fpp : FramesPerPacket) (packet : List Nat) : PRes FrameIteratorS :=
  match fpp with
  | .One => finishFramer 1 zeroSizes packet packet.length true
  | .TwoEquallyCompressed =>
      if packet.length &&& 0b1 ≠ 0 then .err .InvalidPacketSize
      else finishFramer 2 (zeroSizes.set 0 (packet.length / 2)) packet (packet.length / 2) true
  | .TwoDifferentlyCompressed =>
      match parse_size packet with
      | none => .crash
      | some none => .err .InvalidPacketSize
      | some (some (first_frame_size, num_bytes)) =>
        if first_frame_size > packet.length then .err .InvalidPacketSize
        else
          let packet := packet.drop num_bytes
          -- `packet.len() - first_frame_size` is a `usize` subtraction;
          -- underflow is a panic.
          if first_frame_size ≤ packet.length then
            finishFramer 2 (zeroSizes.set 0 first_frame_size) packet
              (packet.length - first_frame_size) false
          else .crash
  | .Arbitrary =>
      if packet.length < 2 then .err .InvalidPacketSize
      else
        match packet with
        | [] => .crash
        | first_byte :: packet =>
          let num_frames := first_byte &&& 0b00111111
          let variable_bit_rate := first_byte &&& 0b1000000 == 0b1000000
          let opus_padding_present := first_byte &&& 0b0100000 == 0b0100000
          if num_frames = 0 then .err .InvalidFrameCount
          else if opus_padding_present then
            match paddingLoop 0 packet with
            | .error e => .err e
            | .ok (total_padding_bytes, packet) =>
              if packet.length ≤ total_padding_bytes then .err .InvalidPacketSize
              else
                arbitraryTail num_frames variable_bit_rate
                  (packet.take (packet.length - total_padding_bytes))
          else arbitraryTail num_frames variable_bit_rate packet

/-- Runs `Iterator::next` of `FrameIterator` (`decoder.rs`) to completion:
each step is `packet.split_at(sizes[current_frame])`, which panics (`none`)
when the recorded size exceeds the remaining buffer. -/
def collectFrames : List Nat → List Nat → Option (List (List Nat))
  | [], _ => some []
  | size :: rest, packet =>
    if size ≤ packet.length then
      match collectFrames rest (packet.drop size) with
      | some fs => some (packet.take size :: fs)
      | none => none
    else none

/-- Frames of a packet body: build the iterator, then drain it. -/
def frames (fpp : FramesPerPacket) (packet : List Nat) : PRes (List (List Nat)) :=
  match framerNew fpp packet with
  | .ok it =>
    match collectFrames (it.sizes.take it.count) it.packet with
    | some fs => .ok fs
    | none => .crash
  | .err e => .err e
  | .crash => .crash

/-- `UINT_BITS` from `range_coding/mod.rs` and `range_decoder.rs`. -/
def UINT_BITS : Nat := 8

/-- `CODE_BITS`: the total number of bits in each state register. -/
def CODE_BITS : Nat := 32

/-- `SYMBOL_BITS`: the number of bits output at a time. -/
def SYMBOL_BITS : Nat := 8

/-- `SYMBOL_MAX = (1 << SYMBOL_BITS) - 1`. -/
def SYMBOL_MAX : Nat := (1 <<< SYMBOL_BITS) - 1

/-- `CODE_SHIFT = CODE_BITS - SYMBOL_BITS - 1`. -/
def CODE_SHIFT : Nat := CODE_BITS - SYMBOL_BITS - 1

/-- `CODE_TOP = 1 << (CODE_BITS - 1)`. -/
def CODE_TOP : Nat := 1 <<< (CODE_BITS - 1)

/-- `CODE_BOTTOM = CODE_TOP >> SYMBOL_BITS`. -/
def CODE_BOTTOM : Nat := CODE_TOP >>> SYMBOL_BITS

/-- `CODE_EXTRA = (CODE_BITS - 2) % SYMBOL_BITS + 1`. -/
def CODE_EXTRA : Nat := (CODE_BITS - 2) % SYMBOL_BITS + 1

/-- `WINDOW_SIZE`: the bit width of the raw-bit window (`u32`). -/
def WINDOW_SIZE : Nat := 32

/-- Reduction of a `Nat` to the 32-bit register width, applied wherever the
Rust `u32` computation can wrap. -/
def wrap32 (n : Nat) : Nat := n % (2 ^ 32)

/-- Cast of an `i32` to `u32` (`available as u32` in `decode_bits`):
two-sided complement reduction modulo `2^32`. -/
def castU32 (a : Int) : Nat := (a % (2 ^ 32 : Int)).toNat

/-- State of `RangeDecoder` together with its `BitDecoder` (`range_decoder.rs`). -/
structure RangeDecoderS where
  frame_data : List Nat
  val : Nat
  rng : Nat
  ext : Nat
  leftover_bit : Bool
  end_window : Nat
  num_end_bits : Int
  num_bits_total : Int
deriving DecidableEq, Repr

namespace RangeDecoderS

/-- `read_byte`: pop the next byte from the front, 0 past end of frame. -/
def read_byte (s : RangeDecoderS) : Nat × RangeDecoderS :=
  match s.frame_data with
  | [] => (0, s)
  | b :: rest => (b, { s with frame_data := rest })

/-- `read_byte_from_end`: pop the next byte from the back, 0 past end. -/
def read_byte_from_end (s : RangeDecoderS) : Nat × RangeDecoderS :=
  match s.frame_data.getLast? with
  | none => (0, s)
  | some b => (b, { s with frame_data := s.frame_data.dropLast })

/-- One iteration of the `renormalize` while-loop body (`range_decoder.rs`):
count 8 bits, shift `rng` left by 8, read the next forward byte, fold in the
leftover low bit, and update `val` with the inverted symbol, masked to
`0x7FFFFFFF`.  The sum `(val << 8) + (255 - sym)` cannot exceed `u32` range
because the shifted value is a multiple of 256. -/
def renormStep (s : RangeDecoderS) : RangeDecoderS :=
  let s := { s with num_bits_total := s.num_bits_total + (SYMBOL_BITS : Int),
                    rng := wrap32 (s.rng <<< SYMBOL_BITS) }
  let (next_byte, s) := read_byte s
  let sym := next_byte ||| (if s.leftover_bit then 1 else 0)
  { s with leftover_bit := next_byte &&& 1 == 1,
           val := (wrap32 (s.val <<< SYMBOL_BITS) + (255 - sym)) &&& 0x7FFFFFFF }

/-- The `renormalize` while-loop with explicit fuel: iterate the body while
`rng ≤ CODE_BOTTOM`. -/
def renormLoop : Nat → RangeDecoderS → RangeDecoderS
  | 0, s => s
  | fuel + 1, s => if s.rng ≤ CODE_BOTTOM then renormLoop fuel (renormStep s) else s

/-- `renormalize` (`range_decoder.rs`).  Each iteration multiplies `rng` by
256, so whenever `0 < rng` at most three iterations can run before the guard
`rng ≤ 2^23` fails; fuel 4 therefore reproduces the source loop on every
state with `0 < rng` (proved below: the result always leaves the guard
false), which holds in every reachable state. -/
def renormalize (s : RangeDecoderS) : RangeDecoderS := renormLoop 4 s

/-- `RangeDecoder::new` (`range_decoder.rs`). -/
def new (frame_data : List Nat) : RangeDecoderS :=
  let (first_input_byte, frame_data) :=
    match frame_data with
    | [] => (0, ([] : List Nat))
    | b :: rest => (b, rest)
  let rng := 1 <<< CODE_EXTRA
  let val := rng - 1 - (first_input_byte >>> (SYMBOL_BITS - CODE_EXTRA))
  renormalize
    { frame_data := frame_data
      val := val
      rng := rng
      ext := 0
      leftover_bit := first_input_byte &&& 1 == 1
      end_window := 0
      num_end_bits := 0
      num_bits_total :=
        (CODE_BITS : Int) + 1 - ((CODE_BITS - CODE_EXTRA) / SYMBOL_BITS) * SYMBOL_BITS }

/-- `RangeDecoder::decode` (`range_decoder.rs`): save the normalization
factor in `ext` and return the cumulative position. -/
def decode (s : RangeDecoderS) (frequency_total : Nat) : Nat × RangeDecoderS :=
  let ext := s.rng / frequency_total
  let q := s.val / ext
  (frequency_total - min (q + 1) frequency_total, { s with ext := ext })

/-- `RangeDecoder::update` (`range_decoder.rs`). -/
def update (s : RangeDecoderS) (frequency_low frequency_high frequency_total : Nat) :
    RangeDecoderS :=
  let d := s.ext * (frequency_total - frequency_high)
  renormalize
    { s with val := s.val - d
             rng := if 0 < frequency_low then s.ext * (frequency_high - frequency_low)
                    else s.rng - d }

/-- The refill loop of `decode_bits` (`range_decoder.rs`): read a byte from
the end, or it into the window at offset `available`, add 8 to `available`,
and stop as soon as `available ≤ WINDOW_SIZE - SYMBOL_BITS`.  A shift offset
outside `0..31` is an overflow panic in Rust, modelled as `none`; since
`available` only grows by 8 per pass, fuel 8 is never exhausted before the
loop stops or panics. -/
def refillLoop : Nat → Nat → Int → RangeDecoderS → Option (Nat × Int × RangeDecoderS)
  | 0, _, _, _ => none
  | fuel + 1, window, available, s =>
    if 0 ≤ available ∧ available < 32 then
      let (b, s) := read_byte_from_end s
      let window := window ||| (b <<< available.toNat)
      let available := available + (SYMBOL_BITS : Int)
      if available ≤ (WINDOW_SIZE : Int) - (SYMBOL_BITS : Int) then some (window, available, s)
      else refillLoop fuel window available s
    else none

/-- `RangeDecoder::decode_bits` (`range_decoder.rs`).  The entry test casts
the signed `available` to `u32`; the mask `(1 << bits) - 1` panics for
`bits ≥ 32` (`none`). -/
def decode_bits (s : RangeDecoderS) (bits : Nat) : Option (Nat × RangeDecoderS) :=
  let window := s.end_window
  let available := s.num_end_bits
  match (if castU32 available < bits then refillLoop 8 window available s
         else some (window, available, s)) with
  | none => none
  | some (window, available, s) =>
    if bits < 32 then
      let ret := window &&& ((1 <<< bits) - 1)
      some (ret,
        { s with end_window := window >>> bits,
                 num_end_bits := available - (bits : Int),
                 num_bits_total := s.num_bits_total + (bits : Int) })
    else none

/-- The `u32` bitwise complement, the Rust `!` operator on `u32`. -/
def bnot32 (x : Nat) : Nat := 4294967295 - x

/-- The shift `v >>= m` of `ilog`: Rust panics (`none`) when the shift
amount reaches the register width. -/
def shrChecked (v m : Nat) : Option Nat := if m < 32 then some (v >>> m) else none

/-- `RangeDecoder::ilog` (`range_decoder.rs`), a literal transcription of the
Rust operators: `!` on `u32` is the bitwise complement, so each `!!` below is
the identity on 32-bit values, each left shift is reduced to the register
width, and each `v >>= m` panics (`none`) when `m` is 32 or more. -/
def ilog (v : Nat) : Option Nat := do
  let ret := bnot32 (bnot32 v)
  let m := wrap32 (bnot32 (bnot32 (v &&& 0xFFFF0000)) <<< 4)
  let v ← shrChecked v m
  let ret := ret ||| m
  let m := wrap32 (bnot32 (bnot32 (v &&& 0xFF00)) <<< 3)
  let v ← shrChecked v m
  let ret := ret ||| m
  let m := wrap32 (bnot32 (bnot32 (v &&& 0xF0)) <<< 2)
  let v ← shrChecked v m
  let ret := ret ||| m
  let m := wrap32 (bnot32 (bnot32 (v &&& 0xC)) <<< 1)
  let v ← shrChecked v m
  let ret := ret ||| m
  pure (ret + bnot32 (bnot32 (v &&& 0x2)))

end RangeDecoderS

/-- State of `RangeEncoder` (`range_coding/range_encoder.rs`). -/
structure RangeEncoderS where
  val : Nat
  rng : Nat
  rem : Option Nat
  ext : Nat
deriving DecidableEq, Repr

namespace RangeEncoderS

/-- `RangeEncoder::new`. -/
def new : RangeEncoderS := ⟨0, CODE_TOP, none, 0⟩

/-- `RangeEncoder::carry_out` (`range_coding/range_encoder.rs`).  The byte
writes guarded by `rem` and `ext` are `TODO` stubs in the source, so the only
state changes are: for `c ≠ 0xFF`, drain `ext` to zero and buffer the low
eight bits of `c` in `rem`; for `c = 0xFF`, increment the deferred count. -/
def carry_out (s : RangeEncoderS) (c : Nat) : RangeEncoderS :=
  if c ≠ SYMBOL_MAX then { s with ext := 0, rem := some (c &&& SYMBOL_MAX) }
  else { s with ext := s.ext + 1 }

/-- The `renormalize` while-loop of the encoder with explicit fuel: while
`rng ≤ CODE_BOTTOM`, call `carry_out(val >> CODE_SHIFT)`.  The source body
contains nothing else — in particular no shift of `rng` or `val` — and
`none` models the case in which the guard is still true when the fuel runs
out, that is, a loop that has not terminated within `fuel` iterations. -/
def renormLoop : Nat → RangeEncoderS → Option RangeEncoderS
  | 0, _ => none
  | fuel + 1, s =>
    if s.rng ≤ CODE_BOTTOM then renormLoop fuel (carry_out s (s.val >>> CODE_SHIFT))
    else some s

/-- The state update of `RangeEncoder::encode` before its final `renormalize`
call: `r = rng / total`, then either the `low > 0` or the `low = 0` branch. -/
def encodeStep (s : RangeEncoderS) (frequency_low frequency_high frequency_total : Nat) :
    RangeEncoderS :=
  let r := s.rng / frequency_total
  if 0 < frequency_low then
    { s with val := wrap32 (s.val + (s.rng - r * (frequency_total - frequency_low))),
             rng := r * (frequency_high - frequency_low) }
  else { s with rng := r * (frequency_total - frequency_high) }

/-- `RangeEncoder::encode`: the state update followed by `renormalize`,
run with the given iteration budget. -/
def encode (fuel : Nat) (s : RangeEncoderS)
    (frequency_low frequency_high frequency_total : Nat) : Option RangeEncoderS :=
  renormLoop fuel (encodeStep s frequency_low frequency_high frequency_total)

end RangeEncoderS

/-- The decoder state invariant stated by the spec: after `renormalize`,
`rng` exceeds `2^23`, is at most `2^31`, and `val < rng`. -/
def DecoderInv (s : RangeDecoderS) : Prop :=
  CODE_BOTTOM < s.rng ∧ s.rng ≤ CODE_TOP ∧ s.val < s.rng

instance (s : RangeDecoderS) : Decidable (DecoderInv s) := by
  unfold DecoderInv; infer_instance

theorem wrap32_of_le (n : Nat) (h : n ≤ 8388608) : wrap32 (n <<< 8) = n * 256 := by
  rw [Nat.shiftLeft_eq, wrap32]
  have : n * 2 ^ 8 = n * 256 := by norm_num
  rw [this, Nat.mod_eq_of_lt (by omega)]

theorem masked_val_lt (v r x : Nat) (hvr : v < r) (hr : r ≤ 8388608) (hx : x ≤ 255) :
    (wrap32 (v <<< 8) + x) &&& 0x7FFFFFFF < r * 256 := by
  rw [wrap32_of_le v (by omega)]
  have h2 : v * 256 + x < 2 ^ 31 := by omega
  have hm : (0x7FFFFFFF : Nat) = 2 ^ 31 - 1 := by norm_num
  rw [hm, Nat.and_pow_two_sub_one_eq_mod, Nat.mod_eq_of_lt h2]
  omega

theorem renormStep_rng (s : RangeDecoderS) (hg : s.rng ≤ CODE_BOTTOM) :
    (RangeDecoderS.renormStep s).rng = s.rng * 256 := by
  have hb : CODE_BOTTOM = 8388608 := rfl
  cases hfd : s.frame_data with
  | nil =>
      simp only [RangeDecoderS.renormStep, RangeDecoderS.read_byte, hfd]
      exact wrap32_of_le s.rng (by omega)
  | cons b rest =>
      simp only [RangeDecoderS.renormStep, RangeDecoderS.read_byte, hfd]
      exact wrap32_of_le s.rng (by omega)

theorem renormStep_val (s : RangeDecoderS) (hg : s.rng ≤ CODE_BOTTOM)
    (hv : s.val < s.rng) : (RangeDecoderS.renormStep s).val < s.rng * 256 := by
  have hb : CODE_BOTTOM = 8388608 := rfl
  cases hfd : s.frame_data with
  | nil =>
      simp only [RangeDecoderS.renormStep, RangeDecoderS.read_byte, hfd]
      exact masked_val_lt s.val s.rng _ hv (by omega) (Nat.sub_le _ _)
  | cons b rest =>
      simp only [RangeDecoderS.renormStep, RangeDecoderS.read_byte, hfd]
      exact masked_val_lt s.val s.rng _ hv (by omega) (Nat.sub_le _ _)

theorem renormLoop_inv (fuel : Nat) :
    ∀ s : RangeDecoderS, 0 < s.rng → s.rng ≤ CODE_TOP → s.val < s.rng →
      CODE_BOTTOM < s.rng * 256 ^ fuel → DecoderInv (RangeDecoderS.renormLoop fuel s) := by
  have hb : CODE_BOTTOM = 8388608 := rfl
  have ht : CODE_TOP = 2147483648 := rfl
  induction fuel with
  | zero =>
      intro s h0 h1 h2 h3
      simpa [RangeDecoderS.renormLoop, DecoderInv] using ⟨by simpa using h3, h1, h2⟩
  | succ n ih =>
      intro s h0 h1 h2 h3
      rw [RangeDecoderS.renormLoop]
      by_cases hg : s.rng ≤ CODE_BOTTOM
      · rw [if_pos hg]
        have hrng := renormStep_rng s hg
        have hval := renormStep_val s hg h2
        apply ih
        · omega
        · omega
        · omega
        · rw [hrng]
          have : s.rng * 256 * 256 ^ n = s.rng * 256 ^ (n + 1) := by ring
          rw [this]
          exact h3
      · rw [if_neg hg]
        exact ⟨by omega, h1, h2⟩

theorem renormalize_inv (s : RangeDecoderS) (h0 : 0 < s.rng) (h1 : s.rng ≤ CODE_TOP)
    (h2 : s.val < s.rng) : DecoderInv (RangeDecoderS.renormalize s) := by
  apply renormLoop_inv 4 s h0 h1 h2
  have : (256 : Nat) ^ 4 = 2 ^ 32 := by norm_num
  rw [this]
  have hb : CODE_BOTTOM = 8388608 := rfl
  have := Nat.mul_le_mul_right (2 ^ 32) h0
  omega

theorem new_inv (frame_data : List Nat) : DecoderInv (RangeDecoderS.new frame_data) := by
  cases frame_data with
  | nil =>
      simp only [RangeDecoderS.new]
      apply renormalize_inv <;> simp [CODE_EXTRA, CODE_BITS, SYMBOL_BITS, CODE_TOP]
  | cons b rest =>
      simp only [RangeDecoderS.new]
      apply renormalize_inv <;>
        simp [CODE_EXTRA, CODE_BITS, SYMBOL_BITS, CODE_TOP, Nat.shiftLeft_eq]
      have : b >>> (8 - 7) ≥ 0 := Nat.zero_le _
      omega

theorem update_inv (s : RangeDecoderS) (ft fl fh : Nat) (hinv : DecoderInv s)
    (hft : 0 < ft) (hle : ft ≤ s.rng)
    (hfl : fl ≤ (RangeDecoderS.decode s ft).1)
    (hfh : (RangeDecoderS.decode s ft).1 < fh) (hfhft : fh ≤ ft) :
    DecoderInv (RangeDecoderS.update (RangeDecoderS.decode s ft).2 fl fh ft) := by
  have hb : CODE_BOTTOM = 8388608 := rfl
  have ht : CODE_TOP = 2147483648 := rfl
  obtain ⟨hi1, hi2, hi3⟩ := hinv
  simp only [RangeDecoderS.decode] at hfl hfh
  simp only [RangeDecoderS.decode, RangeDecoderS.update]
  set e := s.rng / ft with he_def
  set q := s.val / e with hq_def
  have he : 0 < e := Nat.div_pos hle hft
  have hdm : e * q + s.val % e = s.val := Nat.div_add_mod s.val e
  have hmod : s.val % e < e := Nat.mod_lt _ he
  have hB : e * ft ≤ s.rng := by
    rw [he_def]; exact Nat.div_mul_le_self s.rng ft
  have hCB : e * fh ≤ e * ft := Nat.mul_le_mul_left e hfhft
  have hq5 : ft - fh ≤ q := by
    rcases Nat.le_total (q + 1) ft with hc | hc
    · rw [Nat.min_eq_left hc] at hfh; omega
    · rw [Nat.min_eq_right hc] at hfh; omega
  have h5 : e * (ft - fh) ≤ e * q := Nat.mul_le_mul_left e hq5
  have hfh1 : 1 ≤ fh := by
    rcases Nat.le_total (q + 1) ft with hc | hc
    · rw [Nat.min_eq_left hc] at hfh; omega
    · rw [Nat.min_eq_right hc] at hfh; omega
  have hEC : e ≤ e * fh := by
    calc e = e * 1 := (Nat.mul_one e).symm
    _ ≤ e * fh := Nat.mul_le_mul_left e hfh1
  rcases Nat.eq_zero_or_pos fl with hfl0 | hflpos
  · subst hfl0
    rw [if_neg (by omega : ¬ 0 < 0)]
    apply renormalize_inv <;> dsimp only <;>
      simp only [Nat.mul_sub_left_distrib] at h5 ⊢ <;> omega
  · have hflfh : fl < fh := by omega
    have hDE : e * fl + e ≤ e * fh := by
      have := Nat.mul_le_mul_left e (by omega : fl + 1 ≤ fh)
      rw [Nat.mul_add, Nat.mul_one] at this
      exact this
    have hc : q + 1 ≤ ft := by
      rcases Nat.le_total (q + 1) ft with hc | hc
      · exact hc
      · rw [Nat.min_eq_right hc] at hfl; omega
    rw [Nat.min_eq_left hc] at hfl
    have hsum : e * q + e ≤ e * ft - e * fl := by
      have hstep := Nat.mul_le_mul_left e (by omega : q + 1 ≤ ft - fl)
      rw [Nat.mul_add, Nat.mul_one, Nat.mul_sub_left_distrib] at hstep
      exact hstep
    rw [if_pos hflpos]
    apply renormalize_inv <;> dsimp only <;>
      simp only [Nat.mul_sub_left_distrib] at h5 ⊢ <;> omega

/-- Claim C2: for a Range Decoder constructed from any frame byte slice the
state satisfies `2^23 < rng ≤ 2^31` and `val < rng` after construction, and
the invariant is preserved by every `decode`/`update` pair whose arguments
are consistent with the returned position (`low ≤ position < high ≤ total`).
The hypotheses `0 < total` and `total ≤ rng` make the divisions inside
`decode` well defined (the source would otherwise divide by zero). -/
theorem claim_C2_decoder_invariant :
    (∀ frame_data : List Nat, DecoderInv (RangeDecoderS.new frame_data)) ∧
    (∀ (s : RangeDecoderS) (ft fl fh : Nat), DecoderInv s → 0 < ft → ft ≤ s.rng →
      fl ≤ (RangeDecoderS.decode s ft).1 → (RangeDecoderS.decode s ft).1 < fh → fh ≤ ft →
      DecoderInv (RangeDecoderS.update (RangeDecoderS.decode s ft).2 fl fh ft)) :=
  ⟨new_inv, fun s ft fl fh hinv hft hle hfl hfh hfhft =>
    update_inv s ft fl fh hinv hft hle hfl hfh hfhft⟩

/-- Witness for C2 at a concrete frame: construction establishes the
invariant, and one consistent `decode`/`update` round preserves it. -/
theorem claim_C2_witness :
    DecoderInv (RangeDecoderS.update (RangeDecoderS.decode
      (RangeDecoderS.new [5, 7, 9]) 4).2 0 1 4) :=
  claim_C2_decoder_invariant.2 (RangeDecoderS.new [5, 7, 9]) 4 0 1
    (claim_C2_decoder_invariant.1 [5, 7, 9]) (by decide) (by decide)
    (by decide) (by decide) (by decide)

theorem carry_out_rng (s : RangeEncoderS) (c : Nat) :
    (RangeEncoderS.carry_out s c).rng = s.rng := by
  unfold RangeEncoderS.carry_out; split <;> rfl

theorem encoder_renormLoop_none (fuel : Nat) :
    ∀ s : RangeEncoderS, s.rng ≤ CODE_BOTTOM → RangeEncoderS.renormLoop fuel s = none := by
  induction fuel with
  | zero => intro s _; rfl
  | succ n ih =>
      intro s h
      rw [RangeEncoderS.renormLoop, if_pos h]
      exact ih _ (by rw [carry_out_rng]; exact h)

/-- Claim C1: false of the code.  The body of the encoder `renormalize`
while-loop only calls `carry_out(val >> 23)` and never shifts `rng` or `val`,
so once `rng ≤ 2^23` the guard stays true forever and neither `renormalize`
nor the enclosing `encode` call terminates, for any iteration budget.  The
input `encode(low 1, high 2, total 65535)` on a fresh encoder drives `rng`
to `32768 ≤ 2^23`. -/
theorem claim_C1_encoder_renormalize_diverges :
    ∀ fuel : Nat, RangeEncoderS.encode fuel RangeEncoderS.new 1 2 65535 = none := by
  intro fuel
  unfold RangeEncoderS.encode
  apply encoder_renormLoop_none
  decide

theorem paddingLoop_all_ff (k : Nat) :
    ∀ acc : Nat, paddingLoop acc (List.replicate (k + 1) 255) =
      .error .InvalidOpusPadding := by
  induction k with
  | zero => intro acc; simp [List.replicate, paddingLoop]
  | succ n ih =>
      intro acc
      rw [List.replicate_succ, paddingLoop]
      simpa using ih (acc + 254)

theorem paddingLoop_value (k : Nat) :
    ∀ (acc b : Nat) (tail : List Nat), b ≤ 254 →
      paddingLoop acc (List.replicate k 255 ++ b :: tail) =
        .ok (acc + (254 * k + b), tail) := by
  induction k with
  | zero =>
      intro acc b tail hb
      simp [paddingLoop, hb]
  | succ n ih =>
      intro acc b tail hb
      rw [List.replicate_succ, List.cons_append, paddingLoop]
      rw [if_neg (by omega)]
      rw [ih (acc + 254) b tail hb]
      have harith : acc + 254 + (254 * n + b) = acc + (254 * (n + 1) + b) := by ring
      rw [harith]

/-- Reduction of the `Arbitrary` arm of `FrameIterator::new` on a packet
whose control byte has the padding flag set: the control byte is consumed,
the frame count is nonzero (the padding bit lies inside the six count bits),
and the computation continues with the padding loop. -/
theorem framerNew_arbitrary_pad (ctrl : Nat) (rest : List Nat) (hlen : rest ≠ [])
    (hpad : ctrl &&& 0b0100000 = 0b0100000) :
    framerNew .Arbitrary (ctrl :: rest) =
      match paddingLoop 0 rest with
      | .error e => .err e
      | .ok (total, rest2) =>
        if rest2.length ≤ total then .err .InvalidPacketSize
        else arbitraryTail (ctrl &&& 0b00111111) (ctrl &&& 0b1000000 == 0b1000000)
          (rest2.take (rest2.length - total)) := by
  have hnf : ctrl &&& 0b00111111 ≠ 0 := by
    intro h0
    have h63 : (0b00111111 &&& 0b0100000 : Nat) = 0b0100000 := rfl
    have h1 : ctrl &&& 0b00111111 &&& 0b0100000 = ctrl &&& 0b0100000 := by
      rw [Nat.and_assoc, h63]
    rw [h0, hpad] at h1
    simp at h1
  have h2 : ¬ ((ctrl :: rest).length < 2) := by
    cases rest with
    | nil => exact absurd rfl hlen
    | cons x xs => simp
  rw [framerNew, if_neg h2]
  simp [hnf, hpad]

/-- Claim C9: on an `Arbitrary` packet with the padding flag set, the
padding length is the varint sum (each 255 byte contributes 254 and
continues, a byte of at most 254 terminates); a buffer exhausted mid-varint
is `InvalidOpusPadding`; a total at least the remaining length is
`InvalidPacketSize`; otherwise exactly that many bytes are removed from the
tail before the frame-size computation proceeds. -/
theorem claim_C9_padding (ctrl : Nat) (rest : List Nat)
    (hpad : ctrl &&& 0b0100000 = 0b0100000) :
    (∀ k : Nat, rest = List.replicate (k + 1) 255 →
      framerNew .Arbitrary (ctrl :: rest) = .err .InvalidOpusPadding) ∧
    (∀ (k b : Nat) (tail : List Nat), b ≤ 254 →
      rest = List.replicate k 255 ++ b :: tail →
      (tail.length ≤ 254 * k + b →
        framerNew .Arbitrary (ctrl :: rest) = .err .InvalidPacketSize) ∧
      (254 * k + b < tail.length →
        framerNew .Arbitrary (ctrl :: rest) =
          arbitraryTail (ctrl &&& 0b00111111) (ctrl &&& 0b1000000 == 0b1000000)
            (tail.take (tail.length - (254 * k + b))))) := by
  constructor
  · intro k hk
    subst hk
    rw [framerNew_arbitrary_pad ctrl _ (by simp) hpad, paddingLoop_all_ff k 0]
  · intro k b tail hb hk
    subst hk
    have hne : List.replicate k 255 ++ b :: tail ≠ [] := by simp
    constructor
    · intro hlen
      rw [framerNew_arbitrary_pad ctrl _ hne hpad, paddingLoop_value k 0 b tail hb]
      simp only [Nat.zero_add]
      rw [if_pos hlen]
    · intro hlen
      rw [framerNew_arbitrary_pad ctrl _ hne hpad, paddingLoop_value k 0 b tail hb]
      simp only [Nat.zero_add]
      rw [if_neg (by omega)]

/-- Witness for C9 on a concrete packet: control byte 33 (count 33, padding
flag set, constant bit rate), padding varint `3`, body `[9, 8, 7, 6, 5]`:
three bytes are chopped off the tail before the frame sizes are computed. -/
theorem claim_C9_witness :
    framerNew .Arbitrary (33 :: 3 :: [9, 8, 7, 6, 5]) =
      arbitraryTail (33 &&& 0b00111111) (33 &&& 0b1000000 == 0b1000000)
        ([9, 8, 7, 6, 5].take ([9, 8, 7, 6, 5].length - (254 * 0 + 3))) :=
  ((claim_C9_padding 33 (3 :: [9, 8, 7, 6, 5]) (by decide)).2 0 3 [9, 8, 7, 6, 5]
    (by decide) rfl).2 (by decide)

/-- Claim C3: false of the code.  Because the Rust `!!` double complement is
the identity on `u32` (not the C boolean normalization the algorithm was
ported from), `ilog(2)` evaluates to 4 while the bit length of 2 is 2; and
for `v = 65536` the computed shift amount is `0x100000 ≥ 32`, so the shift
`v >>= m` is an arithmetic-overflow panic, refuting the well-definedness
part of the claim as well. -/
theorem claim_C3_ilog_wrong :
    RangeDecoderS.ilog 2 = some 4 ∧ RangeDecoderS.ilog 65536 = none := by
  constructor <;> rfl

set_option maxRecDepth 8192 in
/-- Claim C4: false of the code.  The control byte 66 declares a two-frame
variable-bit-rate packet; the framer accepts it, recording the first frame
size 1 from the prefix but recording the full post-prefix remainder 3 as the
last frame size instead of the 2 bytes that remain after frame 1.  Draining
the iterator therefore panics in `split_at` on the last frame instead of
producing the claimed partition. -/
theorem claim_C4_vbr_last_frame :
    framerNew .Arbitrary [66, 1, 10, 20, 30] =
      .ok ⟨2, [1, 3] ++ List.replicate 46 0, [10, 20, 30], false⟩ ∧
    frames .Arbitrary [66, 1, 10, 20, 30] = .crash := by
  constructor <;> rfl

set_option maxRecDepth 16384 in
/-- Claim C5: for every byte value, TOC parsing succeeds and re-deriving the
config index, framing mode and channel bit reproduces the fields of the
byte. -/
theorem claim_C5_toc_roundtrip : ∀ b : Nat, b < 256 → checkTOC b = true := by decide

/-- Witness for C5 at the byte `0xB8`. -/
theorem claim_C5_witness : checkTOC 0xB8 = true :=
  claim_C5_toc_roundtrip 0xB8 (by decide)

/-- Claim C6: false of the code.  On a fresh decoder over
`[1, 2, 3, 4, 10, 20]` (whose construction consumes the four leading bytes),
`decode_bits(25)` refills only a single byte — the source loop breaks when
`available ≤ 24`, inverting the do-while condition of the reference
algorithm — and returns 20 while leaving `num_end_bits = -17`, a negative
count of remaining window bits. -/
theorem claim_C6_decode_bits_wrong :
    (RangeDecoderS.decode_bits (RangeDecoderS.new [1, 2, 3, 4, 10, 20]) 25).map Prod.fst =
      some 20 ∧
    (RangeDecoderS.decode_bits (RangeDecoderS.new [1, 2, 3, 4, 10, 20]) 25).map
        (fun p => p.2.num_end_bits) = some (-17) := by
  constructor <;> rfl

/-- Claim C7: false of the code.  A constant-bit-rate `Arbitrary` packet can
declare 49 frames (its control byte necessarily also sets the padding bit,
which overlaps the count field); the framer then writes
`sizes[48]` into the 48-entry array, an out-of-bounds panic, instead of
rejecting the packet or staying in bounds. -/
theorem claim_C7_frame_count_overflow :
    framerNew .Arbitrary (49 :: 0 :: List.replicate 49 7) = .crash := by rfl

/-- Claim C8: false of the code.  On the body `[1]` under `TwoDifferent`
framing the size prefix value 1 passes the guard (which compares against the
length before the prefix byte is consumed), and the subtraction
`packet.len() - first_frame_size` computing the second frame then underflows
`0 - 1`, a panic, instead of failing with `InvalidPacketSize`. -/
theorem claim_C8_two_different_underflow :
    framerNew .TwoDifferentlyCompressed [1] = .crash := by rfl

/-- Claim C10 counterexample: the TOC byte `0xB8` does not decode to the
header claimed (CELT-only, full band, 10 ms, mono, one frame). -/
theorem claim_C10_counterexample :
    tocTryFrom 0xB8 ≠ .ok ⟨⟨.CELTOnly, .Full, .Ten⟩, .Mono, .One⟩ := by
  have h : tocTryFrom 0xB8 = .ok ⟨⟨.CELTOnly, .Wide, .Twenty⟩, .Mono, .One⟩ := rfl
  rw [h]
  simp

/-- Claim C10 amended: the TOC byte `0xB8` has config index 23, which the
fixed table maps to CELT-only, wide band, 20 ms; the channel bit is 0 (mono)
and the framing bits are 0 (one frame). -/
theorem claim_C10_amended :
    tocTryFrom 0xB8 = .ok ⟨⟨.CELTOnly, .Wide, .Twenty⟩, .Mono, .One⟩ := by rfl

end Opus
